import Mathlib

/-!
A shallow embedding of the build-artifact cache of `ServeMemoryStore.ts`
(the two-tier build cache of the express-webserver-base repository), with
theorems checking the specified contracts of `getAsset`, `getCacheKey`,
`buildAndCache`, `loadFromDisk`, `setupWatcher`, the watcher event callback
and the rebuild notifier against the code.

Conventions of the embedding:
* JavaScript `Map` objects become association lists (`alookup` / `ainsert` /
  `aerase` mirror `get` / `set` / `delete`; `ainsert` updates in place and
  appends fresh keys, as `Map.set` does).
* `Uint8Array` contents become `List Nat` with every element below 256.
* The Bun bundler (`Bun.build`) is the external compiler collaborator: it is
  a parameter of type `Compiler`, a function from the entry path, the plugin
  list and the minify flag to an optional artifact bundle (`none` models
  `build.success === false`).  Each invocation is counted in `compileCount`.
* `Bun.hash` only produces the on-disk filename stem for a cache key; the
  embedding keys the disk map by the cache key itself, treating the external
  hash as collision-free, which no claim here depends on.
* File system effects (`fs.existsSync` / `readFileSync` / `writeFileSync` /
  `unlinkSync`) become explicit state passing over the `disk` field of
  `Store`; a thrown exception becomes `Except.error`.
-/

/-- Association list lookup, mirroring `Map.get`. -/
def alookup {α : Type} : List (String × α) → String → Option α
  | [], _ => none
  | (k, v) :: rest, key => if k = key then some v else alookup rest key

/-- Association list update, mirroring `Map.set`: replaces in place, appends
fresh keys at the end. -/
def ainsert {α : Type} (key : String) (v : α) : List (String × α) → List (String × α)
  | [] => [(key, v)]
  | (k, w) :: rest => if k = key then (key, v) :: rest else (k, w) :: ainsert key v rest

/-- Association list removal, mirroring `Map.delete`. -/
def aerase {α : Type} (key : String) : List (String × α) → List (String × α)
  | [] => []
  | (k, w) :: rest => if k = key then aerase key rest else (k, w) :: aerase key rest

/-- Insert every pair of a list, first to last, mirroring a `for` loop of
`Map.set` calls. -/
def ainsertAll {α : Type} (entries : List (String × α)) (m : List (String × α)) :
    List (String × α) :=
  entries.foldl (fun acc p => ainsert p.1 p.2 acc) m

/-- Does the second list start with the first one? -/
def startsWithL : List Char → List Char → Bool
  | [], _ => true
  | _ :: _, [] => false
  | p :: ps, c :: cs => p = c && startsWithL ps cs

/-- Substring containment on character lists, mirroring `String.includes`. -/
def containsSub (pat : List Char) : List Char → Bool
  | [] => startsWithL pat []
  | c :: rest => startsWithL pat (c :: rest) || containsSub pat rest

/-- `haystack.includes(pat)` of JavaScript strings. -/
def strContains (pat haystack : String) : Bool :=
  containsSub pat.data haystack.data

/-- Split a character list on the slash separator. -/
def splitSlash : List Char → List (List Char)
  | [] => [[]]
  | c :: rest =>
    if c = '/' then [] :: splitSlash rest
    else
      match splitSlash rest with
      | s :: ss => (c :: s) :: ss
      | [] => [[c]]

/-- One step of the segment normalization loop of Node `path.posix.normalize`
(`normalizeString`): drops empty and dot segments, resolves dot-dot segments
against the accumulator (kept in reverse order), keeping dot-dot segments only
for relative paths that escape above their start. -/
def normStep (allowAbove : Bool) (acc : List (List Char)) (seg : List Char) :
    List (List Char) :=
  if seg = [] ∨ seg = ['.'] then acc
  else if seg = ['.', '.'] then
    match acc with
    | a :: rest => if a = ['.', '.'] then (if allowAbove then ['.', '.'] :: acc else acc) else rest
    | [] => if allowAbove then [['.', '.']] else []
  else seg :: acc

/-- Join segments with slashes. -/
def joinSlash : List (List Char) → List Char
  | [] => []
  | [s] => s
  | s :: rest => s ++ '/' :: joinSlash rest

/-- Node `path.posix.normalize`, the normalization used by `getAsset`. -/
def posixNormalize (p : String) : String :=
  if p.data = [] then "."
  else
    let isAbs := p.data.head? = some '/'
    let trailing := p.data.getLast? = some '/'
    let segs := splitSlash p.data
    let norm := (segs.foldl (normStep (!isAbs)) []).reverse
    let body := joinSlash norm
    if body = [] then
      if isAbs then "/" else if trailing then "./" else "."
    else
      let body1 := if trailing then body ++ ['/'] else body
      if isAbs then String.mk ('/' :: body1) else String.mk body1

/-- A stored side-asset: the `{ type, content }` values of the `_assets` map
(`content` is a `Uint8Array`, modelled as its byte list). -/
structure SideAsset where
  type : String
  content : List Nat
deriving DecidableEq, Repr

/-- `ServeMemoryStore.getAsset`: posix-normalize the requested path, reject
any normalized path containing the two-character substring dot-dot, then look
the normalized path up in the asset table. -/
def getAsset (assets : List (String × SideAsset)) (rawPath : String) : Option SideAsset :=
  let normalizedPath := posixNormalize rawPath
  if strContains ".." normalizedPath then none
  else alookup assets normalizedPath

/-- The `TailwindOptions` build configuration: an enable flag and an optional
plugin list (plugins are opaque to the cache; they are identified by number
here).  `plugins = none` models the field being absent or `undefined`, which
is falsy in JavaScript, while an empty array is truthy. -/
structure TailwindOptions where
  enable : Bool
  plugins : Option (List Nat)
deriving DecidableEq, Repr

/-- `ServeMemoryStore.getCacheKey`. -/
def getCacheKey (htmlPath : String) (options : TailwindOptions) : String :=
  htmlPath ++ (if options.enable then ":tw" else "") ++
    (match options.plugins with
     | some ps => ":" ++ toString ps.length
     | none => "")

/-- Character of a six-bit value in the standard base64 alphabet, as produced
by `Buffer.toString("base64")`. -/
def b64Char (n : Nat) : Char :=
  if n < 26 then Char.ofNat (65 + n)
  else if n < 52 then Char.ofNat (71 + n)
  else if n < 62 then Char.ofNat (n - 4)
  else if n = 62 then '+'
  else '/'

/-- Six-bit value of a base64 alphabet character. -/
def b64Val (c : Char) : Option Nat :=
  let n := c.toNat
  if 65 ≤ n ∧ n ≤ 90 then some (n - 65)
  else if 97 ≤ n ∧ n ≤ 122 then some (n - 71)
  else if 48 ≤ n ∧ n ≤ 57 then some (n + 4)
  else if n = 43 then some 62
  else if n = 47 then some 63
  else none

/-- Base64 encoding of a byte list, three bytes to four characters with
trailing padding, as `Buffer.from(bytes).toString("base64")` produces. -/
def encodeChunks : List Nat → List Char
  | [] => []
  | [b1] => [b64Char (b1 / 4), b64Char (b1 % 4 * 16), '=', '=']
  | [b1, b2] => [b64Char (b1 / 4), b64Char (b1 % 4 * 16 + b2 / 16), b64Char (b2 % 16 * 4), '=']
  | b1 :: b2 :: b3 :: rest =>
    b64Char (b1 / 4) :: b64Char (b1 % 4 * 16 + b2 / 16) ::
      b64Char (b2 % 16 * 4 + b3 / 64) :: b64Char (b3 % 64) :: encodeChunks rest

/-- Base64 decoding of a character list back to bytes. -/
def decodeChunks : List Char → Option (List Nat)
  | [] => some []
  | c1 :: c2 :: c3 :: c4 :: rest =>
    match b64Val c1, b64Val c2 with
    | some v1, some v2 =>
      if c3 = '=' then
        if c4 = '=' ∧ rest = [] then some [v1 * 4 + v2 / 16] else none
      else
        match b64Val c3 with
        | some v3 =>
          if c4 = '=' then
            if rest = [] then some [v1 * 4 + v2 / 16, v2 % 16 * 16 + v3 / 4] else none
          else
            match b64Val c4, decodeChunks rest with
            | some v4, some bs =>
              some ((v1 * 4 + v2 / 16) :: (v2 % 16 * 16 + v3 / 4) :: (v3 % 4 * 64 + v4) :: bs)
            | _, _ => none
        | none => none
    | _, _ => none
  | _ => none

/-- `Buffer.from(text, "base64")`: the decode direction used by
`loadFromDisk`; the Node decoder is lenient and never throws, so undecodable
text is modelled as the empty byte list. -/
def decodeB64 (s : String) : List Nat :=
  (decodeChunks s.data).getD []

/-- One asset entry of the persisted JSON record: media type plus
base64-encoded content, as written by `JSON.stringify` in `buildAndCache`. -/
structure DiskAsset where
  type : String
  content : String
deriving DecidableEq, Repr

/-- The persisted record of one cache key: the on-disk JSON file
`{ html, assets }`.  `JSON.parse` / `JSON.stringify` are treated as a lossless
external transport of this structure. -/
structure DiskRecord where
  html : String
  assets : List (String × DiskAsset)
deriving DecidableEq, Repr

/-- An artifact bundle: the compiled entry document plus the side-assets the
bundler emitted (web path, media type, bytes), already partitioned the way the
output loop of `buildAndCache` partitions `build.outputs`. -/
structure Bundle where
  html : String
  assets : List (String × SideAsset)
deriving DecidableEq, Repr

/-- Base64-encode every side-asset, as the `currentBuildAssets` record is
filled in the output loop of `buildAndCache`. -/
def encodeDiskAssets (l : List (String × SideAsset)) : List (String × DiskAsset) :=
  l.map (fun p => (p.1, ⟨p.2.type, String.mk (encodeChunks p.2.content)⟩))

/-- Decode every persisted asset, as the `Object.entries(data.assets)` loop of
`loadFromDisk` does with `Buffer.from(content, "base64")`. -/
def decodeDiskAssets (l : List (String × DiskAsset)) : List (String × SideAsset) :=
  l.map (fun p => (p.1, ⟨p.2.type, decodeB64 p.2.content⟩))

/-- The record written by the disk-write step of `buildAndCache`. -/
def mkDiskRecord (htmlContent : String) (assets : List (String × SideAsset)) : DiskRecord :=
  ⟨htmlContent, encodeDiskAssets assets⟩

/-- The bundle reconstructed from a persisted record by `loadFromDisk`. -/
def recordToBundle (r : DiskRecord) : Bundle :=
  ⟨r.html, decodeDiskAssets r.assets⟩

/-- The external compiler collaborator (`Bun.build`): entry path, plugin list
and minify flag to an optional bundle; `none` is a failed build. -/
def Compiler : Type :=
  String → List Nat → Bool → Option Bundle

/-- The identifier of the CSS-framework plugin (`tailwindPlugin`) pushed when
the configuration enables it. -/
def tailwindPluginId : Nat := 999

/-- The plugin list handed to the compiler:
`[...(options.plugins || [])]` plus the tailwind plugin when enabled. -/
def buildPlugins (options : TailwindOptions) : List Nat :=
  options.plugins.getD [] ++ (if options.enable then [tailwindPluginId] else [])

/-- The mutable singleton state of `ServeMemoryStore`: the process-wide asset
table (`_assets`), the in-process html cache (`_htmlCache`), the on-disk cache
directory contents (`.ebw-cache`, keyed here by cache key), the armed watchers
(`_watchers`, cache key to watched entry path) and a counter of compiler
invocations. -/
structure Store where
  devMode : Bool
  assets : List (String × SideAsset)
  htmlCache : List (String × String)
  disk : List (String × DiskRecord)
  watchers : List (String × String)
  compileCount : Nat
deriving DecidableEq, Repr

/-- `ServeMemoryStore.loadFromDisk`: in development mode the disk tier is
skipped entirely; otherwise a present record hydrates the in-process html
cache and the asset table and its html is returned. -/
def loadFromDisk (s : Store) (cacheKey : String) : Option String × Store :=
  if s.devMode then (none, s)
  else
    match alookup s.disk cacheKey with
    | none => (none, s)
    | some r =>
      (some r.html,
        { s with
          htmlCache := ainsert cacheKey r.html s.htmlCache
          assets := ainsertAll (decodeDiskAssets r.assets) s.assets })

/-- `ServeMemoryStore.setupWatcher`: keyed by the cache key derived from the
entry path and the configuration; a second call for an already-watched cache
key returns without arming anything. -/
def setupWatcher (s : Store) (htmlPath : String) (options : TailwindOptions) : Store :=
  let cacheKey := getCacheKey htmlPath options
  if (alookup s.watchers cacheKey).isSome then s
  else { s with watchers := ainsert cacheKey htmlPath s.watchers }

/-- The inline reload/HMR client snippet appended in development mode.  The
snippet is a fixed string constant; its exact text plays no role in any claim,
so the embedding keeps a short stand-in marker. -/
def devReloadScript : String :=
  "<script src=/socket.io/socket.io.js></script><script id=ebw-hmr-script>hmr</script>"

/-- A length bound on `List.dropWhile`, needed for the termination measure of
the timestamp rewrite below. -/
def dropWhile_length_le (p : Char → Bool) :
    ∀ l : List Char, (List.dropWhile p l).length ≤ l.length
  | [] => Nat.le_refl _
  | c :: rest => by
    rw [List.dropWhile]
    cases p c
    · simp
    · simp
      exact Nat.le_succ_of_le (dropWhile_length_le p rest)

/-- The development-mode timestamp rewrite
`htmlContent.replace(/(\.js|\.css)(\?.*)?/g, "$1?t=" + timestamp)`: each
occurrence of the extension, with any query string up to the end of the line
dropped, receives a fresh cache-busting query. -/
def replaceTs (ts : List Char) : List Char → List Char
  | [] => []
  | '.' :: 'j' :: 's' :: rest =>
    '.' :: 'j' :: 's' :: '?' :: 't' :: '=' :: ts ++
      (match rest with
       | '?' :: r2 => replaceTs ts (r2.dropWhile (fun c => c ≠ '\n'))
       | r2 => replaceTs ts r2)
  | '.' :: 'c' :: 's' :: 's' :: rest =>
    '.' :: 'c' :: 's' :: 's' :: '?' :: 't' :: '=' :: ts ++
      (match rest with
       | '?' :: r2 => replaceTs ts (r2.dropWhile (fun c => c ≠ '\n'))
       | r2 => replaceTs ts r2)
  | c :: rest => c :: replaceTs ts rest
termination_by l => l.length
decreasing_by
  all_goals simp_arith
  all_goals exact le_trans (dropWhile_length_le _ _) (by simp_arith)

/-- Modelled from the spec: the external HTML library (`cheerio`) used by the
development-mode injection appends the snippet inside the body element when
one exists, otherwise at the document root.  The library itself is an external
collaborator; its effect is modelled as inserting the snippet before the first
closing body tag, or appending it at the end when there is none. -/
def appendScript (script : List Char) : List Char → List Char
  | [] => script
  | c :: rest =>
    if startsWithL "</body>".data (c :: rest) then script ++ c :: rest
    else c :: appendScript script rest

/-- The development-mode HTML post-processing of `buildAndCache`: timestamp
rewrite followed by reload-snippet injection. -/
def injectDev (t : Nat) (html : String) : String :=
  String.mk (appendScript devReloadScript.data (replaceTs (toString t).data html.data))

/-- The build step of `buildAndCache` (step 3 onward): invoke the compiler
(counted), throw on failure, insert the side-assets into the asset table,
post-process and arm a watcher in development mode, populate the in-process
html cache, and in non-development mode persist the record to disk, where a
failing `fs.writeFileSync` throws and the surrounding catch block logs and
rethrows.  The pair holds the outcome (`Except.error` is a thrown exception)
and the state after all mutations that happened before the return or throw. -/
def buildStep (compile : Compiler) (writeOk : Bool) (t : Nat) (s : Store)
    (htmlPath : String) (options : TailwindOptions) (cacheKey : String) :
    Except Unit String × Store :=
  let s0 := { s with compileCount := s.compileCount + 1 }
  match compile htmlPath (buildPlugins options) (!s.devMode) with
  | none => (Except.error (), s0)
  | some b =>
    let s1 := { s0 with assets := ainsertAll b.assets s0.assets }
    let htmlContent := if s1.devMode then injectDev t b.html else b.html
    let s2 := if s1.devMode then setupWatcher s1 htmlPath options else s1
    let s3 := { s2 with htmlCache := ainsert cacheKey htmlContent s2.htmlCache }
    if s3.devMode then (Except.ok htmlContent, s3)
    else if writeOk then
      (Except.ok htmlContent,
        { s3 with disk := ainsert cacheKey (mkDiskRecord htmlContent b.assets) s3.disk })
    else (Except.error (), s3)

/-- `ServeMemoryStore.buildAndCache`: derive the key, probe the memory tier
(trusted only outside development mode), probe the disk tier (a non-empty
persisted html is a hit, arming a watcher in development mode), else build. -/
def buildAndCache (compile : Compiler) (writeOk : Bool) (t : Nat) (s : Store)
    (htmlPath : String) (options : TailwindOptions) : Except Unit String × Store :=
  let cacheKey := getCacheKey htmlPath options
  match (if !s.devMode then alookup s.htmlCache cacheKey else none) with
  | some cached => (Except.ok cached, s)
  | none =>
    let probe := loadFromDisk s cacheKey
    match probe.1 with
    | some diskHtml =>
      if diskHtml ≠ "" then
        (Except.ok diskHtml,
          if probe.2.devMode then setupWatcher probe.2 htmlPath options else probe.2)
      else buildStep compile writeOk t probe.2 htmlPath options cacheKey
    | none => buildStep compile writeOk t probe.2 htmlPath options cacheKey

/-- The file-system event callback armed by `setupWatcher`: a missing or noisy
filename is ignored; otherwise the key is evicted from the in-process cache
and from disk, `buildAndCache` is re-run, and on success the fresh html is
handed to `notify` (the second component; `none` means no notification, since
a failed rebuild is only logged). -/
def watcherCallback (compile : Compiler) (writeOk : Bool) (t : Nat) (s : Store)
    (htmlPath : String) (options : TailwindOptions) (filename : Option String) :
    Store × Option String :=
  match filename with
  | none => (s, none)
  | some f =>
    if strContains "node_modules" f || strContains ".git" f || strContains ".ebw-cache" f then
      (s, none)
    else
      let cacheKey := getCacheKey htmlPath options
      let s1 := { s with htmlCache := aerase cacheKey s.htmlCache, disk := aerase cacheKey s.disk }
      match buildAndCache compile writeOk t s1 htmlPath options with
      | (Except.ok newHtml, s2) => (s2, some newHtml)
      | (Except.error _, s2) => (s2, none)

/-- The observable behavior of a registered rebuild listener: it either
returns or throws when invoked. -/
inductive ListenerBehavior
  | ok
  | throws
deriving DecidableEq, Repr

/-- `ServeMemoryStore.notify`: `this._listeners.forEach((l) => l(data))`.
Listeners are identified by number and run first to last; a JavaScript
`forEach` loop is aborted by an exception of its callback, so the invocation
stops at the first throwing listener.  The result is the list of listeners
that were actually invoked, in order, and whether the loop completed. -/
def notifyRun : List (Nat × ListenerBehavior) → List Nat × Bool
  | [] => ([], true)
  | (i, ListenerBehavior.ok) :: rest =>
    ((i :: (notifyRun rest).1), (notifyRun rest).2)
  | (i, ListenerBehavior.throws) :: _ => ([i], false)

/-- A sample stored asset used by concrete checks. -/
def sampleAsset : SideAsset := ⟨"text/plain", [120, 121]⟩

/-- Persist a bundle for a key: the record written by the disk-write step of
`buildAndCache` under the hashed key file. -/
def diskSave (cacheKey : String) (b : Bundle) (disk : List (String × DiskRecord)) :
    List (String × DiskRecord) :=
  ainsert cacheKey (mkDiskRecord b.html b.assets) disk

/-- Read a bundle back for a key, reconstructing it the way `loadFromDisk`
does from the parsed record. -/
def diskLoad (disk : List (String × DiskRecord)) (cacheKey : String) : Option Bundle :=
  (alookup disk cacheKey).map recordToBundle

def twNone : TailwindOptions := ⟨false, none⟩

def compileFixed : Compiler := fun _ _ _ => some ⟨"<h1>hi</h1>", []⟩

def prodStore0 : Store := ⟨false, [], [], [], [], 0⟩

def devStore0 : Store := ⟨true, [], [], [], [], 0⟩

def devState1 : Store := (buildAndCache compileFixed true 0 devStore0 "a" twNone).2

def prodState1 : Store := (buildAndCache compileFixed true 0 prodStore0 "app.html" twNone).2

def diskRecordW : DiskRecord :=
  mkDiskRecord "<h1>cached</h1>" [("/app-1.js", ⟨"text/javascript", [1, 2]⟩)]

def storeDiskW : Store :=
  ⟨false, [], [], [(getCacheKey "app.html" twNone, diskRecordW)], [], 0⟩

def watchersForEntry (p : String) (s : Store) : Nat :=
  (s.watchers.filter (fun w => decide (w.2 = p))).length

def devTwoConfigs : Store :=
  (buildAndCache compileFixed true 0
    (buildAndCache compileFixed true 0 devStore0 "a" twNone).2 "a" ⟨true, none⟩).2

theorem alookup_ainsert_self {α : Type} (k : String) (v : α) (m : List (String × α)) :
    alookup (ainsert k v m) k = some v := by
  induction m with
  | nil => simp [ainsert, alookup]
  | cons hd tl ih =>
    obtain ⟨k1, v1⟩ := hd
    by_cases hk : k1 = k
    · simp [ainsert, hk, alookup]
    · simp [ainsert, hk, alookup, ih]

theorem alookup_ainsert_ne {α : Type} (k k2 : String) (v : α) (m : List (String × α))
    (h : k2 ≠ k) : alookup (ainsert k v m) k2 = alookup m k2 := by
  have h2 : ¬ k = k2 := fun hh => h hh.symm
  induction m with
  | nil => simp [ainsert, alookup, h2]
  | cons hd tl ih =>
    obtain ⟨k1, v1⟩ := hd
    by_cases hk : k1 = k
    · subst hk
      simp [ainsert, alookup, h2]
    · simp [ainsert, hk, alookup, ih]

example : posixNormalize "/../../etc/passwd" = "/etc/passwd" := by decide

example : posixNormalize "/a/../../b" = "/b" := by decide

example : posixNormalize "a/../../b" = "../b" := by decide

example : posixNormalize "/a//b/./c/" = "/a/b/c/" := by decide

example : posixNormalize "" = "." := by decide

example : posixNormalize "/a..b.js" = "/a..b.js" := by decide

example : getCacheKey "a" ⟨true, some [1, 2]⟩ = "a:tw:2" := by decide

example : getCacheKey "a" ⟨false, none⟩ = "a" := by decide

example : getCacheKey "a" ⟨false, some []⟩ = "a:0" := by decide

theorem b64Val_b64Char : ∀ n < 64, b64Val (b64Char n) = some n ∧ b64Char n ≠ '=' := by
  decide

theorem decode_encode : ∀ l : List Nat, (∀ b ∈ l, b < 256) →
    decodeChunks (encodeChunks l) = some l
  | [], _ => rfl
  | [b1], h => by
    have hb1 : b1 < 256 := h b1 (by simp)
    have h1 := b64Val_b64Char (b1 / 4) (by omega)
    have h2 := b64Val_b64Char (b1 % 4 * 16) (by omega)
    show decodeChunks [b64Char (b1 / 4), b64Char (b1 % 4 * 16), '=', '='] = some [b1]
    simp only [decodeChunks, h1.1, h2.1, ite_true, eq_self_iff_true, and_self,
      Option.some.injEq, List.cons.injEq, and_true]
    omega
  | [b1, b2], h => by
    have hb1 : b1 < 256 := h b1 (by simp)
    have hb2 : b2 < 256 := h b2 (by simp)
    have h1 := b64Val_b64Char (b1 / 4) (by omega)
    have h2 := b64Val_b64Char (b1 % 4 * 16 + b2 / 16) (by omega)
    have h3 := b64Val_b64Char (b2 % 16 * 4) (by omega)
    show decodeChunks [b64Char (b1 / 4), b64Char (b1 % 4 * 16 + b2 / 16),
      b64Char (b2 % 16 * 4), '='] = some [b1, b2]
    simp only [decodeChunks, h1.1, h2.1, h3.1, if_neg h3.2, ite_true, eq_self_iff_true,
      Option.some.injEq, List.cons.injEq, and_true]
    omega
  | b1 :: b2 :: b3 :: rest, h => by
    have hb1 : b1 < 256 := h b1 (by simp)
    have hb2 : b2 < 256 := h b2 (by simp)
    have hb3 : b3 < 256 := h b3 (by simp)
    have ih := decode_encode rest (fun b hb => h b (by simp [hb]))
    have h1 := b64Val_b64Char (b1 / 4) (by omega)
    have h2 := b64Val_b64Char (b1 % 4 * 16 + b2 / 16) (by omega)
    have h3 := b64Val_b64Char (b2 % 16 * 4 + b3 / 64) (by omega)
    have h4 := b64Val_b64Char (b3 % 64) (by omega)
    show decodeChunks (b64Char (b1 / 4) :: b64Char (b1 % 4 * 16 + b2 / 16) ::
      b64Char (b2 % 16 * 4 + b3 / 64) :: b64Char (b3 % 64) :: encodeChunks rest)
      = some (b1 :: b2 :: b3 :: rest)
    simp only [decodeChunks, h1.1, h2.1, h3.1, h4.1, if_neg h3.2, if_neg h4.2, ih,
      Option.some.injEq, List.cons.injEq, and_true]
    omega

theorem decodeB64_encode (l : List Nat) (h : ∀ b ∈ l, b < 256) :
    decodeB64 (String.mk (encodeChunks l)) = l := by
  unfold decodeB64
  rw [show (String.mk (encodeChunks l)).data = encodeChunks l from rfl, decode_encode l h]
  rfl

/-- C1: the claim as stated is refuted at a concrete asset table.  Node posix
normalization resolves the leading parent-directory segments of the absolute
path away, so the normalized path contains no dot-dot and `getAsset` proceeds
to the map lookup; with an entry stored under the normalized path the result
is that entry, not absent. -/
theorem getAsset_traversal_counterexample :
    getAsset [("/etc/passwd", sampleAsset)] "/../../etc/passwd" = some sampleAsset ∧
    getAsset [("/etc/passwd", sampleAsset)] "/../../etc/passwd" ≠ none := by
  constructor
  · decide
  · decide

/-- C1 (amended): `getAsset` rejects exactly the requests whose normalized
path still contains the dot-dot substring, before any lookup; the two cited
requests normalize to traversal-free paths, so each returns the table entry
stored under its normalized path and is absent only when the table lacks that
entry. -/
theorem getAsset_normalizes_then_rejects (assets : List (String × SideAsset)) :
    getAsset assets "/../../etc/passwd" = alookup assets "/etc/passwd" ∧
    getAsset assets "/a/../../b" = alookup assets "/b" ∧
    (∀ rawPath, strContains ".." (posixNormalize rawPath) = true →
      getAsset assets rawPath = none) := by
  refine ⟨?_, ?_, ?_⟩
  · show (if strContains ".." (posixNormalize "/../../etc/passwd") then none
      else alookup assets (posixNormalize "/../../etc/passwd")) = alookup assets "/etc/passwd"
    rw [show posixNormalize "/../../etc/passwd" = "/etc/passwd" from by decide]
    rw [if_neg (by decide)]
  · show (if strContains ".." (posixNormalize "/a/../../b") then none
      else alookup assets (posixNormalize "/a/../../b")) = alookup assets "/b"
    rw [show posixNormalize "/a/../../b" = "/b" from by decide]
    rw [if_neg (by decide)]
  · intro rawPath h
    show (if strContains ".." (posixNormalize rawPath) then none
      else alookup assets (posixNormalize rawPath)) = none
    rw [if_pos h]

/-- C1 witness: the amended theorem applied at a concrete table. -/
theorem getAsset_normalizes_then_rejects_witness :
    getAsset [("/etc/passwd", sampleAsset)] "/../../etc/passwd" =
      alookup [("/etc/passwd", sampleAsset)] "/etc/passwd" ∧
    getAsset ([] : List (String × SideAsset)) "/a/../../b" = alookup [] "/b" :=
  ⟨(getAsset_normalizes_then_rejects [("/etc/passwd", sampleAsset)]).1,
   (getAsset_normalizes_then_rejects []).2.1⟩

/-- C10: `getAsset` returns absent for every request whose normalized path
contains the dot-dot substring anywhere, parent-directory segment or not; in
particular a request for the literal asset path `/a..b.js` is refused even
when the table holds exactly that entry. -/
theorem getAsset_rejects_dotdot_substring :
    (∀ assets rawPath, strContains ".." (posixNormalize rawPath) = true →
      getAsset assets rawPath = none) ∧
    (∀ a, getAsset [("/a..b.js", a)] "/a..b.js" = none) := by
  constructor
  · intro assets rawPath h
    show (if strContains ".." (posixNormalize rawPath) then none
      else alookup assets (posixNormalize rawPath)) = none
    rw [if_pos h]
  · intro a
    show (if strContains ".." (posixNormalize "/a..b.js") then none
      else alookup [("/a..b.js", a)] (posixNormalize "/a..b.js")) = none
    rw [if_pos (by decide)]

/-- C10 witness: the theorem applied at a concrete table and request. -/
theorem getAsset_rejects_dotdot_substring_witness :
    getAsset [("/a..b.js", sampleAsset)] "/a..b.js" = none :=
  getAsset_rejects_dotdot_substring.2 sampleAsset

/-- C4: the claim as stated is refuted by a deterministic collision: the two
argument pairs differ in both the entry path and the configuration, yet the
derived keys are equal, so unequal inputs do not give unequal keys with
overwhelming probability (the collision has probability one). -/
theorem getCacheKey_collision_counterexample :
    getCacheKey "a:tw" ⟨false, none⟩ = getCacheKey "a" ⟨true, none⟩ ∧
    ("a:tw", (⟨false, none⟩ : TailwindOptions)) ≠ ("a", (⟨true, none⟩ : TailwindOptions)) := by
  constructor
  · decide
  · decide

/-- C4 (amended): the key derivation is a pure function of the entry path,
the enable flag and the plugin count alone — equal inputs always derive equal
keys, and two configurations agreeing on the enable flag and the plugin count
derive equal keys for the same path even when their plugin lists differ; and
distinct (path, configuration) pairs can deterministically collide. -/
theorem getCacheKey_deterministic :
    (∀ htmlPath o1 o2, o1.enable = o2.enable →
      o1.plugins.map List.length = o2.plugins.map List.length →
      getCacheKey htmlPath o1 = getCacheKey htmlPath o2) ∧
    getCacheKey "a:tw" ⟨false, none⟩ = getCacheKey "a" ⟨true, none⟩ := by
  constructor
  · intro htmlPath o1 o2 he hp
    obtain ⟨e1, p1⟩ := o1
    obtain ⟨e2, p2⟩ := o2
    cases he
    unfold getCacheKey
    cases p1 with
    | none =>
      cases p2 with
      | none => rfl
      | some l2 => simp at hp
    | some l1 =>
      cases p2 with
      | none => simp at hp
      | some l2 =>
        simp at hp
        simp [hp]
  · decide

/-- C4 witness: two configurations with different plugin lists of equal
length derive the same key. -/
theorem getCacheKey_deterministic_witness :
    getCacheKey "app.html" ⟨true, some [1]⟩ = getCacheKey "app.html" ⟨true, some [2]⟩ :=
  getCacheKey_deterministic.1 "app.html" ⟨true, some [1]⟩ ⟨true, some [2]⟩ rfl rfl

/-- C5: the claim as stated is refuted at a two-listener registry whose first
listener throws: `forEach` is aborted by the exception, so the second
listener is never invoked. -/
theorem notify_throw_counterexample :
    (notifyRun [(0, ListenerBehavior.throws), (1, ListenerBehavior.ok)]).1 = [0] ∧
    1 ∉ (notifyRun [(0, ListenerBehavior.throws), (1, ListenerBehavior.ok)]).1 := by
  constructor
  · decide
  · decide

/-- C5 (amended): `notify` invokes listeners synchronously in registration
order only up to and including the first throwing listener; when no listener
throws every listener is invoked in order, and a throwing listener prevents
every later-registered listener from running. -/
theorem notify_stops_at_first_throw :
    (∀ listeners : List (Nat × ListenerBehavior),
      (∀ p ∈ listeners, p.2 = ListenerBehavior.ok) →
      (notifyRun listeners).1 = listeners.map Prod.fst) ∧
    (∀ pre post (j : Nat), (∀ p ∈ pre, p.2 = ListenerBehavior.ok) →
      (notifyRun (pre ++ (j, ListenerBehavior.throws) :: post)).1 =
        pre.map Prod.fst ++ [j]) := by
  constructor
  · intro listeners hall
    induction listeners with
    | nil => rfl
    | cons hd tl ih =>
      obtain ⟨i, b⟩ := hd
      have hb : b = ListenerBehavior.ok := hall (i, b) (by simp)
      subst hb
      simp only [notifyRun, List.map_cons]
      rw [ih (fun p hp => hall p (by simp [hp]))]
  · intro pre post j hpre
    induction pre with
    | nil => rfl
    | cons hd tl ih =>
      obtain ⟨i, b⟩ := hd
      have hb : b = ListenerBehavior.ok := hpre (i, b) (by simp)
      subst hb
      simp only [List.cons_append, notifyRun, List.map_cons, List.append_eq]
      rw [ih (fun p hp => hpre p (by simp [hp]))]

/-- C5 witness: the amended theorem applied at a concrete registry. -/
theorem notify_stops_at_first_throw_witness :
    (notifyRun [(0, ListenerBehavior.ok), (1, ListenerBehavior.ok)]).1 = [0, 1] ∧
    (notifyRun [(2, ListenerBehavior.ok), (3, ListenerBehavior.throws), (4, ListenerBehavior.ok)]).1
      = [2, 3] := by
  constructor
  · exact notify_stops_at_first_throw.1 [(0, ListenerBehavior.ok), (1, ListenerBehavior.ok)]
      (by decide)
  · exact notify_stops_at_first_throw.2 [(2, ListenerBehavior.ok)] [(4, ListenerBehavior.ok)] 3
      (by decide)

theorem decodeDiskAssets_encodeDiskAssets (l : List (String × SideAsset))
    (h : ∀ p ∈ l, ∀ b ∈ p.2.content, b < 256) :
    decodeDiskAssets (encodeDiskAssets l) = l := by
  induction l with
  | nil => rfl
  | cons hd tl ih =>
    obtain ⟨wp, a⟩ := hd
    simp only [encodeDiskAssets, decodeDiskAssets, List.map_cons, List.cons.injEq]
    constructor
    · have hb := decodeB64_encode a.content (h (wp, a) (by simp))
      simp [hb]
    · have := ih (fun p hp b hb => h p (by simp [hp]) b hb)
      simpa [decodeDiskAssets, encodeDiskAssets] using this

/-- C6: `save` then `load` of the same key round-trips the bundle — the html
string and every side-asset web path, media type and byte content survive the
JSON/base64 persisted record unchanged. -/
theorem save_load_roundtrip (cacheKey : String) (disk : List (String × DiskRecord))
    (b : Bundle) (h : ∀ p ∈ b.assets, ∀ byte ∈ p.2.content, byte < 256) :
    diskLoad (diskSave cacheKey b disk) cacheKey = some b := by
  unfold diskLoad diskSave
  rw [alookup_ainsert_self]
  show some (recordToBundle (mkDiskRecord b.html b.assets)) = some b
  show some (⟨b.html, decodeDiskAssets (encodeDiskAssets b.assets)⟩ : Bundle) = some b
  rw [decodeDiskAssets_encodeDiskAssets b.assets h]

/-- C6 witness: a concrete bundle with two side-assets round-trips. -/
theorem save_load_roundtrip_witness :
    diskLoad (diskSave "app.html" ⟨"<h1>ok</h1>",
      [("/app-1.js", ⟨"text/javascript", [0, 1, 255]⟩),
       ("/app-1.css", ⟨"text/css", [7]⟩)]⟩ []) "app.html" =
    some ⟨"<h1>ok</h1>",
      [("/app-1.js", ⟨"text/javascript", [0, 1, 255]⟩),
       ("/app-1.css", ⟨"text/css", [7]⟩)]⟩ :=
  save_load_roundtrip "app.html" [] _ (by decide)

/-- C8: a file-system event whose path contains the dependency directory
(`node_modules`), the version-control directory (`.git`) or the build cache
directory (`.ebw-cache`) is filtered out before anything happens: the state
is returned untouched (no eviction from either tier, no compiler invocation)
and no listener notification payload is produced. -/
theorem watcher_noise_filtered (compile : Compiler) (writeOk : Bool) (t : Nat)
    (s : Store) (htmlPath : String) (options : TailwindOptions) (f : String)
    (hf : strContains "node_modules" f = true ∨ strContains ".git" f = true ∨
      strContains ".ebw-cache" f = true) :
    watcherCallback compile writeOk t s htmlPath options (some f) = (s, none) := by
  unfold watcherCallback
  rcases hf with h | h | h <;> simp [h]

/-- C8 witness: the theorem applied at concrete noisy event paths. -/
theorem watcher_noise_filtered_witness :
    watcherCallback (fun _ _ _ => none) true 0
      ⟨false, [], [], [], [], 0⟩ "app.html" ⟨false, none⟩
      (some "views/node_modules/pkg/index.js") = (⟨false, [], [], [], [], 0⟩, none) ∧
    watcherCallback (fun _ _ _ => none) true 0
      ⟨false, [], [], [], [], 0⟩ "app.html" ⟨false, none⟩
      (some ".ebw-cache/12ab.json") = (⟨false, [], [], [], [], 0⟩, none) :=
  ⟨watcher_noise_filtered _ _ _ _ _ _ _ (Or.inl (by decide)),
   watcher_noise_filtered _ _ _ _ _ _ _ (Or.inr (Or.inr (by decide)))⟩

theorem setupWatcher_fields (s : Store) (p : String) (o : TailwindOptions) :
    (setupWatcher s p o).devMode = s.devMode ∧
    (setupWatcher s p o).htmlCache = s.htmlCache ∧
    (setupWatcher s p o).assets = s.assets ∧
    (setupWatcher s p o).disk = s.disk ∧
    (setupWatcher s p o).compileCount = s.compileCount := by
  simp only [setupWatcher]
  split <;> simp

/-- C2 (amended): after a successful build in non-development mode, a failing
persistent-store write makes `buildAndCache` itself fail — the write sits
inside the try block whose catch clause logs and rethrows — but the
in-process tier was populated with the built html before the write was
attempted, so the bundle is available from memory afterwards. -/
theorem buildAndCache_write_failure
    (compile : Compiler) (t : Nat) (s : Store) (htmlPath : String) (options : TailwindOptions)
    (b : Bundle)
    (hdev : s.devMode = false)
    (hmem : alookup s.htmlCache (getCacheKey htmlPath options) = none)
    (hdisk : alookup s.disk (getCacheKey htmlPath options) = none)
    (hc : compile htmlPath (buildPlugins options) true = some b) :
    (buildAndCache compile false t s htmlPath options).1 = Except.error () ∧
    alookup (buildAndCache compile false t s htmlPath options).2.htmlCache
      (getCacheKey htmlPath options) = some b.html := by
  unfold buildAndCache loadFromDisk buildStep
  simp only [hdev, hmem, hdisk, Bool.false_eq_true, if_false, Bool.not_false, Bool.not_true,
    if_true, ite_true, hc]
  exact ⟨trivial, alookup_ainsert_self _ _ _⟩

/-- C2 witness: the amended theorem applied at a concrete store and compiler. -/
theorem buildAndCache_write_failure_witness :
    (buildAndCache compileFixed false 0 prodStore0 "app.html" twNone).1 = Except.error () ∧
    alookup (buildAndCache compileFixed false 0 prodStore0 "app.html" twNone).2.htmlCache
      (getCacheKey "app.html" twNone) = some "<h1>hi</h1>" :=
  buildAndCache_write_failure compileFixed 0 prodStore0 "app.html" twNone
    ⟨"<h1>hi</h1>", []⟩ rfl rfl rfl rfl

/-- C2: the claim as stated is refuted at a concrete store: the build
succeeds, the disk write fails, and the call returns the thrown error
rather than the built html. -/
theorem write_failure_counterexample :
    (buildAndCache compileFixed false 0 prodStore0 "app.html" twNone).1 = Except.error () ∧
    (buildAndCache compileFixed false 0 prodStore0 "app.html" twNone).1 ≠
      Except.ok "<h1>hi</h1>" := by
  constructor
  · rfl
  · intro hcontra
    rw [show (buildAndCache compileFixed false 0 prodStore0 "app.html" twNone).1 =
      Except.error () from rfl] at hcontra
    cases hcontra

theorem buildStep_ok_nondev (compile : Compiler) (writeOk : Bool) (t : Nat)
    (sb : Store) (htmlPath : String) (options : TailwindOptions) (cacheKey : String)
    (h0 : String) (s2 : Store)
    (hdev : sb.devMode = false)
    (hok : buildStep compile writeOk t sb htmlPath options cacheKey = (Except.ok h0, s2)) :
    s2.devMode = false ∧ alookup s2.htmlCache cacheKey = some h0 := by
  unfold buildStep at hok
  simp only [hdev] at hok
  split at hok
  · cases hok
  · simp only [Bool.false_eq_true, if_false] at hok
    split at hok
    · simp only [Prod.mk.injEq, Except.ok.injEq] at hok
      obtain ⟨hh, hs⟩ := hok
      subst hs
      subst hh
      exact ⟨rfl, alookup_ainsert_self _ _ _⟩
    · cases hok

theorem loadFromDisk_nondev_fields (s : Store) (cacheKey : String)
    (hdev : s.devMode = false) :
    (loadFromDisk s cacheKey).2.devMode = false ∧
    (loadFromDisk s cacheKey).2.compileCount = s.compileCount ∧
    (loadFromDisk s cacheKey).2.watchers = s.watchers := by
  unfold loadFromDisk
  simp only [hdev, Bool.false_eq_true, if_false]
  split
  · exact ⟨hdev, rfl, rfl⟩
  · simp

theorem loadFromDisk_hit_cache (s : Store) (cacheKey : String) (dh : String)
    (hdev : s.devMode = false)
    (h : (loadFromDisk s cacheKey).1 = some dh) :
    (loadFromDisk s cacheKey).2.htmlCache = ainsert cacheKey dh s.htmlCache := by
  unfold loadFromDisk at h ⊢
  simp only [hdev, Bool.false_eq_true, if_false] at h ⊢
  cases halk : alookup s.disk cacheKey with
  | none =>
    rw [halk] at h
    cases h
  | some r =>
    rw [halk] at h
    dsimp only at h
    injection h with hh
    dsimp only
    rw [hh]

theorem buildAndCache_ok_nondev (compile : Compiler) (writeOk : Bool) (t : Nat)
    (s : Store) (htmlPath : String) (options : TailwindOptions) (h0 : String) (s1 : Store)
    (hdev : s.devMode = false)
    (hok : buildAndCache compile writeOk t s htmlPath options = (Except.ok h0, s1)) :
    s1.devMode = false ∧ alookup s1.htmlCache (getCacheKey htmlPath options) = some h0 := by
  unfold buildAndCache at hok
  simp only [hdev] at hok
  split at hok
  · rename_i cached hmem
    simp only [Prod.mk.injEq, Except.ok.injEq] at hok
    obtain ⟨hh, hs⟩ := hok
    subst hs
    subst hh
    exact ⟨hdev, by simpa using hmem⟩
  · have hld := loadFromDisk_nondev_fields s (getCacheKey htmlPath options) hdev
    split at hok
    · rename_i dh hdh
      simp only [hld.1, Bool.false_eq_true, if_false] at hok
      split at hok
      · simp only [Prod.mk.injEq, Except.ok.injEq] at hok
        obtain ⟨hh, hs⟩ := hok
        subst hs
        subst hh
        refine ⟨hld.1, ?_⟩
        rw [loadFromDisk_hit_cache s _ _ hdev hdh]
        exact alookup_ainsert_self _ _ _
      · exact buildStep_ok_nondev _ _ _ _ _ _ _ _ _ hld.1 hok
    · exact buildStep_ok_nondev _ _ _ _ _ _ _ _ _ hld.1 hok

/-- C3 (amended): outside development mode, a second `buildAndCache` call
with the same entry path and configuration, after a successful first call and
regardless of the compiler or the write outcome offered to it, is answered
from the memory tier: it returns byte-identical html, leaves the state
untouched, and triggers zero further compiler invocations.  In development
mode the memory probe and the disk tier are both bypassed, so idempotence
does not hold there (see the counterexample). -/
theorem buildAndCache_idempotent_nondev
    (compile compile2 : Compiler) (writeOk writeOk2 : Bool) (t t2 : Nat)
    (s : Store) (htmlPath : String) (options : TailwindOptions) (h0 : String) (s1 : Store)
    (hdev : s.devMode = false)
    (h1 : buildAndCache compile writeOk t s htmlPath options = (Except.ok h0, s1)) :
    buildAndCache compile2 writeOk2 t2 s1 htmlPath options = (Except.ok h0, s1) ∧
    (buildAndCache compile2 writeOk2 t2 s1 htmlPath options).2.compileCount =
      s1.compileCount := by
  obtain ⟨hdev1, hcache⟩ :=
    buildAndCache_ok_nondev compile writeOk t s htmlPath options h0 s1 hdev h1
  have hmain : buildAndCache compile2 writeOk2 t2 s1 htmlPath options = (Except.ok h0, s1) := by
    unfold buildAndCache
    simp [hdev1, hcache]
  exact ⟨hmain, by rw [hmain]⟩

/-- C3: the claim as stated is refuted in development mode, the disk policy
this implementation chose to skip there: with the memory probe disabled and
the disk tier bypassed, the second identical call re-invokes the compiler
(the invocation count rises from one to two instead of staying at one). -/
theorem dev_recompile_counterexample :
    devState1.compileCount = 1 ∧
    (buildAndCache compileFixed true 0 devState1 "a" twNone).2.compileCount = 2 ∧
    (buildAndCache compileFixed true 0 devState1 "a" twNone).2.compileCount ≠ 1 := by
  refine ⟨rfl, rfl, ?_⟩
  intro hcontra
  rw [show (buildAndCache compileFixed true 0 devState1 "a" twNone).2.compileCount = 2
    from rfl] at hcontra
  cases hcontra

/-- C3 witness: the amended theorem applied after a concrete first build in
non-development mode. -/
theorem buildAndCache_idempotent_witness :
    buildAndCache compileFixed true 1 prodState1 "app.html" twNone =
      (Except.ok "<h1>hi</h1>", prodState1) :=
  (buildAndCache_idempotent_nondev compileFixed compileFixed true true 0 1
    prodStore0 "app.html" twNone "<h1>hi</h1>" prodState1 rfl rfl).1

theorem loadFromDisk_hit_assets (s : Store) (cacheKey : String) (r : DiskRecord)
    (hdev : s.devMode = false)
    (hr : alookup s.disk cacheKey = some r) :
    (loadFromDisk s cacheKey).1 = some r.html ∧
    (loadFromDisk s cacheKey).2.assets = ainsertAll (decodeDiskAssets r.assets) s.assets := by
  unfold loadFromDisk
  simp only [hdev, Bool.false_eq_true, if_false, hr]
  exact ⟨trivial, trivial⟩

/-- C7: when the memory tier misses and the disk probe returns a persisted
record with non-empty html for the key, `buildAndCache` returns that html in
the state the probe produced: the compiler is not invoked, the in-process
store holds the html under the key, the asset table has been hydrated with
the decoded persisted assets, and in development mode a watcher for the key
is armed (vacuously here: the development path skips the disk tier, so a
development-mode disk hit cannot occur). -/
theorem buildAndCache_disk_probe
    (compile : Compiler) (writeOk : Bool) (t : Nat) (s : Store) (htmlPath : String)
    (options : TailwindOptions) (h0 : String) (r : DiskRecord)
    (hmem : alookup s.htmlCache (getCacheKey htmlPath options) = none)
    (hdisk : (loadFromDisk s (getCacheKey htmlPath options)).1 = some h0)
    (hne : h0 ≠ "")
    (hr : alookup s.disk (getCacheKey htmlPath options) = some r) :
    buildAndCache compile writeOk t s htmlPath options =
      (Except.ok h0, (loadFromDisk s (getCacheKey htmlPath options)).2) ∧
    (loadFromDisk s (getCacheKey htmlPath options)).2.compileCount = s.compileCount ∧
    alookup (loadFromDisk s (getCacheKey htmlPath options)).2.htmlCache
      (getCacheKey htmlPath options) = some h0 ∧
    (loadFromDisk s (getCacheKey htmlPath options)).2.assets
      = ainsertAll (decodeDiskAssets r.assets) s.assets ∧
    h0 = r.html ∧
    (s.devMode = true →
      (alookup (buildAndCache compile writeOk t s htmlPath options).2.watchers
        (getCacheKey htmlPath options)).isSome = true) := by
  have hdevf : s.devMode = false := by
    by_contra hd
    have hdt : s.devMode = true := by simpa using hd
    unfold loadFromDisk at hdisk
    rw [hdt] at hdisk
    simp at hdisk
  have hld := loadFromDisk_nondev_fields s (getCacheKey htmlPath options) hdevf
  have hla := loadFromDisk_hit_assets s (getCacheKey htmlPath options) r hdevf hr
  have hh0 : h0 = r.html := by
    rw [hla.1] at hdisk
    injection hdisk with hx
    exact hx.symm
  have hmain : buildAndCache compile writeOk t s htmlPath options =
      (Except.ok h0, (loadFromDisk s (getCacheKey htmlPath options)).2) := by
    unfold buildAndCache
    simp only [hdevf, Bool.not_false, ite_true, hmem, hdisk, hld.1, Bool.false_eq_true,
      if_false]
    simp [hne]
  refine ⟨hmain, hld.2.1, ?_, hla.2, hh0, ?_⟩
  · rw [loadFromDisk_hit_cache s _ _ hdevf hdisk]
    exact alookup_ainsert_self _ _ _
  · intro hdt
    rw [hdevf] at hdt
    cases hdt

/-- C7 witness: the theorem applied at a concrete store holding one persisted
record. -/
theorem buildAndCache_disk_probe_witness :
    (buildAndCache compileFixed true 0 storeDiskW "app.html" twNone).1 =
      Except.ok "<h1>cached</h1>" ∧
    (buildAndCache compileFixed true 0 storeDiskW "app.html" twNone).2.compileCount = 0 := by
  obtain ⟨h1, h2, -⟩ := buildAndCache_disk_probe compileFixed true 0 storeDiskW "app.html"
    twNone "<h1>cached</h1>" diskRecordW rfl rfl (by decide) rfl
  constructor
  · rw [h1]
  · rw [h1]
    exact h2

/-- C9: the claim as stated is refuted by two development-mode builds of the
same entry path under two configurations with different fingerprints: each
build arms its own watcher, so two live watchers watch the one entry path. -/
theorem watcher_per_entry_counterexample :
    watchersForEntry "a" devTwoConfigs = 2 ∧
    ¬ (watchersForEntry "a" devTwoConfigs ≤ 1) := by
  constructor
  · rfl
  · decide

theorem setupWatcher_noop (s : Store) (p : String) (o : TailwindOptions)
    (h : (alookup s.watchers (getCacheKey p o)).isSome = true) :
    setupWatcher s p o = s := by
  unfold setupWatcher
  simp [h]

theorem setupWatcher_armed (s : Store) (p : String) (o : TailwindOptions) :
    (alookup (setupWatcher s p o).watchers (getCacheKey p o)).isSome = true := by
  simp only [setupWatcher]
  split
  · rename_i hw
    exact hw
  · simp [alookup_ainsert_self]

/-- C9 (amended): watchers are keyed by the cache key (entry path plus
configuration fingerprint), not by the entry path alone: arming a watcher
leaves one armed for the cache key, and repeating `setupWatcher` for the same
entry path and configuration is a no-op, so repeated development-mode builds
with one configuration never create a second watcher — but distinct
configurations of the same entry path arm distinct watchers (see the
counterexample). -/
theorem setupWatcher_per_cacheKey (s : Store) (p : String) (o : TailwindOptions) :
    (alookup (setupWatcher s p o).watchers (getCacheKey p o)).isSome = true ∧
    setupWatcher (setupWatcher s p o) p o = setupWatcher s p o :=
  ⟨setupWatcher_armed s p o, setupWatcher_noop _ p o (setupWatcher_armed s p o)⟩
